import Mathlib

/-!
# generate-token.js

A shallow embedding of `src/generate-token.js`, the script that hand-crafts an HS256 JWT:

* a JavaScript string is the list of its UTF-16 code units, a `Buffer` the list of its bytes;
* `Buffer.from(str)` is `utf8Encode`, `buf.toString('base64url')` is `base64url`;
* `JSON.stringify` is modelled for the objects the script builds (string and integer fields);
* `crypto.createHmac('sha256', key).update(msg).digest()` is `hmacSha256`
  (RFC 2104 over SHA-256, FIPS 180-4), with 32-bit words as `Nat` reduced `% 2 ^ 32`;
* the two `Date.now()` calls are the two clock readings `now1` and `now2` (milliseconds);
* the secret, a constant of the script, is a parameter of `signature`, `token` and `stdout`;
  `secret` is the constant itself.
-/

namespace GenerateToken

/-! ## Strings and buffers -/

/-- A JavaScript string: the sequence of its UTF-16 code units, numbers below `65536`. The
functions below are total on all lists of numbers. -/
abbrev JSString := List Nat

/-- The contents of a `Buffer`: a sequence of bytes. -/
abbrev Bytes := List Nat

/-- UTF-16 code units of one Unicode scalar value. -/
def utf16 (c : Char) : List Nat :=
  if c.toNat < 0x10000 then [c.toNat]
  else [0xD800 + (c.toNat - 0x10000) / 0x400, 0xDC00 + (c.toNat - 0x10000) % 0x400]

/-- The JavaScript string written as a literal. -/
def lit (s : String) : JSString := s.toList.flatMap utf16

/-- UTF-8 bytes of one code point. -/
def utf8OfCodePoint (cp : Nat) : Bytes :=
  if cp < 0x80 then [cp]
  else if cp < 0x800 then [0xC0 + cp / 64, 0x80 + cp % 64]
  else if cp < 0x10000 then [0xE0 + cp / 4096, 0x80 + cp / 64 % 64, 0x80 + cp % 64]
  else [0xF0 + cp / 262144 % 8, 0x80 + cp / 4096 % 64, 0x80 + cp / 64 % 64, 0x80 + cp % 64]

/-- UTF-8 bytes of a code unit that is not part of a surrogate pair: an unpaired surrogate
is written as U+FFFD. -/
def utf8Unit (u : Nat) : Bytes :=
  if 0xD800 ≤ u ∧ u < 0xE000 then [0xEF, 0xBF, 0xBD] else utf8OfCodePoint u

/-- The bytes of `Buffer.from(str)` (encoding `utf8`, the default; also the conversion that
`createHmac` and `update` apply to a string argument). -/
def utf8Encode : JSString → Bytes
  | [] => []
  | [u] => utf8Unit u
  | u :: lo :: rest =>
    if 0xD800 ≤ u ∧ u < 0xDC00 ∧ 0xDC00 ≤ lo ∧ lo < 0xE000 then
      utf8OfCodePoint (0x10000 + (u - 0xD800) * 0x400 + (lo - 0xDC00)) ++ utf8Encode rest
    else utf8Unit u ++ utf8Encode (lo :: rest)

/-- The base64url alphabet. -/
def b64urlAlphabet : JSString :=
  lit "ABCDEFGHIJKLMNOPQRSTUVWXYZabcdefghijklmnopqrstuvwxyz0123456789-_"

/-- The character of a 6-bit value. -/
def b64Char (i : Nat) : Nat := b64urlAlphabet.getD i 0

/-- The string of `buf.toString('base64url')` and of `digest('base64url')`: three bytes give four
characters, a final group of two bytes gives three, of one byte two; no padding is written. -/
def base64url : Bytes → JSString
  | a :: b :: c :: rest =>
      b64Char (a / 4) :: b64Char (a % 4 * 16 + b / 16) ::
        b64Char (b % 16 * 4 + c / 64) :: b64Char (c % 64) :: base64url rest
  | [a, b] => [b64Char (a / 4), b64Char (a % 4 * 16 + b / 16), b64Char (b % 16 * 4)]
  | [a] => [b64Char (a / 4), b64Char (a % 4 * 16)]
  | [] => []

/-! ## JSON.stringify -/

/-- The values the script puts in its objects: strings and non-negative integers. -/
inductive JSValue where
  | str : JSString → JSValue
  | num : Nat → JSValue
deriving DecidableEq

/-- An object literal: its properties in insertion order. -/
abbrev JSObject := List (JSString × JSValue)

/-- Lower-case hexadecimal digit. -/
def hexDigit (n : Nat) : Nat := (lit "0123456789abcdef").getD n 0

/-- One code unit inside a JSON string: the short escapes, then the `u` escape for the other
control characters and for unpaired surrogates. -/
def jsonEscapeUnit (u : Nat) : JSString :=
  if u = 0x08 then [92, 98]
  else if u = 0x09 then [92, 116]
  else if u = 0x0A then [92, 110]
  else if u = 0x0C then [92, 102]
  else if u = 0x0D then [92, 114]
  else if u = 0x22 then [92, 34]
  else if u = 0x5C then [92, 92]
  else if u < 0x20 ∨ (0xD800 ≤ u ∧ u < 0xE000) then
    [92, 117, hexDigit (u / 4096 % 16), hexDigit (u / 256 % 16), hexDigit (u / 16 % 16),
      hexDigit (u % 16)]
  else [u]

/-- The characters of a JSON string between its quotes; surrogate pairs are kept. -/
def jsonEscape : JSString → JSString
  | [] => []
  | [u] => jsonEscapeUnit u
  | u :: lo :: rest =>
    if 0xD800 ≤ u ∧ u < 0xDC00 ∧ 0xDC00 ≤ lo ∧ lo < 0xE000 then u :: lo :: jsonEscape rest
    else jsonEscapeUnit u ++ jsonEscape (lo :: rest)

/-- A quoted JSON string. -/
def jsonQuote (s : JSString) : JSString := [34] ++ jsonEscape s ++ [34]

/-- Serialization of a value; an integer is written in decimal (the integers of the script,
epoch seconds, are far below `10 ^ 21`, where JavaScript changes to exponent form). -/
def JSValue.stringify : JSValue → JSString
  | .str s => jsonQuote s
  | .num n => (Nat.toDigits 10 n).map Char.toNat

/-- One property, `"key":value`. -/
def jsonMember (kv : JSString × JSValue) : JSString :=
  jsonQuote kv.1 ++ [58] ++ kv.2.stringify

/-- The string of `JSON.stringify(obj)` without indentation: the properties in insertion order,
separated by commas, between braces. -/
def JSON.stringify (obj : JSObject) : JSString :=
  [123] ++ [44].intercalate (obj.map jsonMember) ++ [125]

/-! ## SHA-256 and HMAC -/

/-- Addition modulo `2 ^ 32`. -/
def add32 (x y : Nat) : Nat := (x + y) % 2 ^ 32

/-- Rotation to the right of a 32-bit word. -/
def rotr (n x : Nat) : Nat := (x >>> n ||| x <<< (32 - n)) % 2 ^ 32

/-- Shift to the right. -/
def shr (n x : Nat) : Nat := x >>> n

/-- Complement of a 32-bit word. -/
def not32 (x : Nat) : Nat := x ^^^ 0xFFFFFFFF

/-- The function Ch of FIPS 180-4, 4.1.2. -/
def Ch (x y z : Nat) : Nat := (x &&& y) ^^^ (not32 x &&& z)

/-- The function Maj of FIPS 180-4, 4.1.2. -/
def Maj (x y z : Nat) : Nat := (x &&& y) ^^^ (x &&& z) ^^^ (y &&& z)

/-- The function Sigma0 (upper case). -/
def bigSigma0 (x : Nat) : Nat := rotr 2 x ^^^ rotr 13 x ^^^ rotr 22 x

/-- The function Sigma1 (upper case). -/
def bigSigma1 (x : Nat) : Nat := rotr 6 x ^^^ rotr 11 x ^^^ rotr 25 x

/-- The function sigma0 (lower case). -/
def smallSigma0 (x : Nat) : Nat := rotr 7 x ^^^ rotr 18 x ^^^ shr 3 x

/-- The function sigma1 (lower case). -/
def smallSigma1 (x : Nat) : Nat := rotr 17 x ^^^ rotr 19 x ^^^ shr 10 x

/-- The 64 round constants. -/
def K256 : List Nat :=
  [0x428a2f98, 0x71374491, 0xb5c0fbcf, 0xe9b5dba5, 0x3956c25b, 0x59f111f1, 0x923f82a4, 0xab1c5ed5,
   0xd807aa98, 0x12835b01, 0x243185be, 0x550c7dc3, 0x72be5d74, 0x80deb1fe, 0x9bdc06a7, 0xc19bf174,
   0xe49b69c1, 0xefbe4786, 0x0fc19dc6, 0x240ca1cc, 0x2de92c6f, 0x4a7484aa, 0x5cb0a9dc, 0x76f988da,
   0x983e5152, 0xa831c66d, 0xb00327c8, 0xbf597fc7, 0xc6e00bf3, 0xd5a79147, 0x06ca6351, 0x14292967,
   0x27b70a85, 0x2e1b2138, 0x4d2c6dfc, 0x53380d13, 0x650a7354, 0x766a0abb, 0x81c2c92e, 0x92722c85,
   0xa2bfe8a1, 0xa81a664b, 0xc24b8b70, 0xc76c51a3, 0xd192e819, 0xd6990624, 0xf40e3585, 0x106aa070,
   0x19a4c116, 0x1e376c08, 0x2748774c, 0x34b0bcb5, 0x391c0cb3, 0x4ed8aa4a, 0x5b9cca4f, 0x682e6ff3,
   0x748f82ee, 0x78a5636f, 0x84c87814, 0x8cc70208, 0x90befffa, 0xa4506ceb, 0xbef9a3f7, 0xc67178f2]

/-- The eight working words of the hash. -/
structure HashState where
  a : Nat
  b : Nat
  c : Nat
  d : Nat
  e : Nat
  f : Nat
  g : Nat
  h : Nat

/-- The initial hash value. -/
def H0 : HashState :=
  ⟨0x6a09e667, 0xbb67ae85, 0x3c6ef372, 0xa54ff53a, 0x510e527f, 0x9b05688c, 0x1f83d9ab, 0x5be0cd19⟩

/-- Big-endian 32-bit words of a block. -/
def wordsOfBytes : Bytes → List Nat
  | b0 :: b1 :: b2 :: b3 :: rest =>
      (b0 * 2 ^ 24 + b1 * 2 ^ 16 + b2 * 2 ^ 8 + b3) :: wordsOfBytes rest
  | _ => []

/-- Extends the message schedule, kept newest word first, by `n` further words. -/
def extendSchedule : Nat → List Nat → List Nat
  | 0, w => w
  | n + 1, w =>
      extendSchedule n
        (add32 (add32 (add32 (smallSigma1 (w.getD 1 0)) (w.getD 6 0))
          (smallSigma0 (w.getD 14 0))) (w.getD 15 0) :: w)

/-- The 64 words of the message schedule of a block. -/
def schedule (block : Bytes) : List Nat :=
  (extendSchedule 48 (wordsOfBytes block).reverse).reverse

/-- One round, with its constant and its schedule word. -/
def round (s : HashState) (kw : Nat × Nat) : HashState :=
  let t1 := add32 (add32 (add32 (add32 s.h (bigSigma1 s.e)) (Ch s.e s.f s.g)) kw.1) kw.2
  let t2 := add32 (bigSigma0 s.a) (Maj s.a s.b s.c)
  ⟨add32 t1 t2, s.a, s.b, s.c, add32 s.d t1, s.e, s.f, s.g⟩

/-- The compression of one 64-byte block into the hash value. -/
def compress (s : HashState) (block : Bytes) : HashState :=
  let r := (K256.zip (schedule block)).foldl round s
  ⟨add32 s.a r.a, add32 s.b r.b, add32 s.c r.c, add32 s.d r.d,
   add32 s.e r.e, add32 s.f r.f, add32 s.g r.g, add32 s.h r.h⟩

/-- Big-endian bytes of a 64-bit length. -/
def be64 (n : Nat) : Bytes :=
  [n / 2 ^ 56 % 256, n / 2 ^ 48 % 256, n / 2 ^ 40 % 256, n / 2 ^ 32 % 256,
   n / 2 ^ 24 % 256, n / 2 ^ 16 % 256, n / 2 ^ 8 % 256, n % 256]

/-- The padded message: the byte `0x80`, zeros up to 56 modulo 64, the length in bits. -/
def pad (msg : Bytes) : Bytes :=
  msg ++ [0x80] ++ List.replicate ((119 - msg.length % 64) % 64) 0 ++ be64 (8 * msg.length)

/-- The first `n` blocks of 64 bytes. -/
def blocks : Nat → Bytes → List Bytes
  | 0, _ => []
  | n + 1, bs => bs.take 64 :: blocks n (bs.drop 64)

/-- Big-endian bytes of a 32-bit word. -/
def be32 (w : Nat) : Bytes := [w / 2 ^ 24 % 256, w / 2 ^ 16 % 256, w / 2 ^ 8 % 256, w % 256]

/-- The 32 bytes of a hash value. -/
def HashState.bytes (s : HashState) : Bytes :=
  be32 s.a ++ be32 s.b ++ be32 s.c ++ be32 s.d ++ be32 s.e ++ be32 s.f ++ be32 s.g ++ be32 s.h

/-- SHA-256 of a message. -/
def sha256 (msg : Bytes) : Bytes :=
  ((blocks ((pad msg).length / 64) (pad msg)).foldl compress H0).bytes

/-- The digest of `crypto.createHmac('sha256', key).update(msg).digest()`: a key longer than
the block is hashed first, the key is filled with zeros to 64 bytes, and the message is hashed
under the inner and the outer pad. -/
def hmacSha256 (key msg : Bytes) : Bytes :=
  let k0 := if key.length > 64 then sha256 key else key
  let k := k0 ++ List.replicate (64 - k0.length) 0
  sha256 (k.map (· ^^^ 0x5c) ++ sha256 (k.map (· ^^^ 0x36) ++ msg))

/-! ## The script -/

/-- Line 4: the secret of the script. -/
def secret : JSString := lit "your-super-secret-jwt-key-min-32-chars"

/-- Lines 7-10: the header object. -/
def headerObject : JSObject :=
  [(lit "alg", .str (lit "HS256")), (lit "typ", .str (lit "JWT"))]

/-- Lines 7-10: `header`. -/
def header : JSString := base64url (utf8Encode (JSON.stringify headerObject))

/-- Lines 13-19: the payload object. `now1` and `now2` are the values of the two calls of
`Date.now()`, integers of milliseconds; `Math.floor(now / 1000)` is the integer quotient (the
division of doubles is exact enough on the range of `Date.now()`, at most `8.64e15`). -/
def payloadObject (now1 now2 : Nat) : JSObject :=
  [(lit "userId", .str (lit "test-user-123")),
   (lit "phone", .str (lit "+1234567890")),
   (lit "role", .str (lit "ADMIN")),
   (lit "iat", .num (now1 / 1000)),
   (lit "exp", .num (now2 / 1000 + 86400))]

/-- Lines 13-19: `payload`. -/
def payload (now1 now2 : Nat) : JSString :=
  base64url (utf8Encode (JSON.stringify (payloadObject now1 now2)))

/-- Lines 22-25: `signature`, for the secret `sec`. -/
def signature (sec : JSString) (now1 now2 : Nat) : JSString :=
  base64url (hmacSha256 (utf8Encode sec) (utf8Encode (header ++ lit "." ++ payload now1 now2)))

/-- Line 27: `token`, for the secret `sec`. -/
def token (sec : JSString) (now1 now2 : Nat) : JSString :=
  header ++ lit "." ++ payload now1 now2 ++ lit "." ++ signature sec now1 now2

/-- The call `console.log(s)`: writes `s` and a newline to standard output. -/
def consoleLog (out : JSString) (s : JSString) : JSString := out ++ s ++ [10]

/-- Lines 28-29: the text on standard output after the script has run. -/
def stdout (sec : JSString) (now1 now2 : Nat) : JSString :=
  consoleLog (consoleLog [] (lit "JWT Token:\n")) (token sec now1 now2)

/-! ## Notions of the specification -/

/-- The 6-bit value of a character of the base64url alphabet, `none` for any other character. -/
def b64Index (c : Nat) : Option Nat :=
  if b64urlAlphabet.indexOf c < 64 then some (b64urlAlphabet.indexOf c) else none

/-- Decoding of base64url without padding, the inverse of `base64url`: `none` when a character
is outside the alphabet or a single character is left over. -/
def base64urlDecode : JSString → Option Bytes
  | c0 :: c1 :: c2 :: c3 :: rest =>
      match b64Index c0, b64Index c1, b64Index c2, b64Index c3, base64urlDecode rest with
      | some s0, some s1, some s2, some s3, some tl =>
          some ((s0 * 4 + s1 / 16) :: (s1 % 16 * 16 + s2 / 4) :: (s2 % 4 * 64 + s3) :: tl)
      | _, _, _, _, _ => none
  | [c0, c1, c2] =>
      match b64Index c0, b64Index c1, b64Index c2 with
      | some s0, some s1, some s2 => some [s0 * 4 + s1 / 16, s1 % 16 * 16 + s2 / 4]
      | _, _, _ => none
  | [c0, c1] =>
      match b64Index c0, b64Index c1 with
      | some s0, some s1 => some [s0 * 4 + s1 / 16]
      | _, _ => none
  | [_] => none
  | [] => some []

/-- The pieces of a string between the occurrences of a separator (`str.split(sep)` for a
separator of one character). -/
def splitOn (sep : Nat) : JSString → List JSString
  | [] => [[]]
  | c :: cs =>
    if c = sep then [] :: splitOn sep cs
    else
      match splitOn sep cs with
      | s :: ss => (c :: s) :: ss
      | [] => [[c]]

/-- The segments of a token: its pieces between the dots. -/
def segments (tok : JSString) : List JSString := splitOn 46 tok

/-- Segment `i + 1` of a token (the empty string when there is none). -/
def segment (i : Nat) (tok : JSString) : JSString := (segments tok).getD i []

/-- The lines of a text: its pieces between newlines, where a newline at the very end closes
the last line and opens no further one. -/
def lines (text : JSString) : List JSString :=
  if (splitOn 10 text).getLast? = some [] then (splitOn 10 text).dropLast else splitOn 10 text

/-- A character of the base64url alphabet: `A-Z`, `a-z`, `0-9`, `-` or `_`. -/
def IsBase64urlChar (c : Nat) : Prop :=
  (65 ≤ c ∧ c ≤ 90) ∨ (97 ≤ c ∧ c ≤ 122) ∨ (48 ≤ c ∧ c ≤ 57) ∨ c = 45 ∨ c = 95

instance : DecidablePred IsBase64urlChar := fun c => by
  unfold IsBase64urlChar
  infer_instance

/-- The number of positions at which two strings differ. -/
def diffCount (s t : JSString) : Nat := ((s.zip t).filter fun p => p.1 ≠ p.2).length

/-- The value of a property of an object. -/
def JSObject.get? (obj : JSObject) (key : JSString) : Option JSValue := obj.lookup key

/-! ## base64url -/

theorem b64Index_b64Char (i : Nat) (h : i < 64) : b64Index (b64Char i) = some i := by
  interval_cases i <;> decide

theorem isBase64urlChar_b64Char (i : Nat) (h : i < 64) : IsBase64urlChar (b64Char i) := by
  interval_cases i <;> decide

theorem base64urlDecode_base64url (bs : Bytes) (h : ∀ b ∈ bs, b < 256) :
    base64urlDecode (base64url bs) = some bs := by
  induction bs using base64url.induct with
  | case1 a b c rest ih =>
    have ha : a < 256 := h a (by simp)
    have hb : b < 256 := h b (by simp)
    have hc : c < 256 := h c (by simp)
    have hr := ih (fun x hx => h x (by simp [hx]))
    simp only [base64url, base64urlDecode]
    rw [b64Index_b64Char _ (by omega), b64Index_b64Char _ (by omega),
      b64Index_b64Char _ (by omega), b64Index_b64Char _ (by omega), hr]
    simp only [Option.some.injEq, List.cons.injEq, and_true]
    refine ⟨by omega, by omega, by omega⟩
  | case2 a b =>
    have ha : a < 256 := h a (by simp)
    have hb : b < 256 := h b (by simp)
    simp only [base64url, base64urlDecode]
    rw [b64Index_b64Char _ (by omega), b64Index_b64Char _ (by omega),
      b64Index_b64Char _ (by omega)]
    simp only [Option.some.injEq, List.cons.injEq, and_true]
    refine ⟨by omega, by omega⟩
  | case3 a =>
    have ha : a < 256 := h a (by simp)
    simp only [base64url, base64urlDecode]
    rw [b64Index_b64Char _ (by omega), b64Index_b64Char _ (by omega)]
    simp only [Option.some.injEq, List.cons.injEq, and_true]
    omega
  | case4 => rfl

theorem base64url_injective (xs ys : Bytes) (hx : ∀ b ∈ xs, b < 256) (hy : ∀ b ∈ ys, b < 256)
    (h : base64url xs = base64url ys) : xs = ys := by
  have h1 := base64urlDecode_base64url xs hx
  rw [h, base64urlDecode_base64url ys hy] at h1
  exact (Option.some.inj h1).symm

theorem isBase64urlChar_base64url (bs : Bytes) (h : ∀ b ∈ bs, b < 256) :
    ∀ c ∈ base64url bs, IsBase64urlChar c := by
  induction bs using base64url.induct with
  | case1 a b c rest ih =>
    have ha : a < 256 := h a (by simp)
    have hb : b < 256 := h b (by simp)
    have hc : c < 256 := h c (by simp)
    have hr := ih (fun x hx => h x (by simp [hx]))
    intro x hx
    simp only [base64url, List.mem_cons] at hx
    rcases hx with rfl | rfl | rfl | rfl | hx
    · exact isBase64urlChar_b64Char _ (by omega)
    · exact isBase64urlChar_b64Char _ (by omega)
    · exact isBase64urlChar_b64Char _ (by omega)
    · exact isBase64urlChar_b64Char _ (by omega)
    · exact hr x hx
  | case2 a b =>
    have ha : a < 256 := h a (by simp)
    have hb : b < 256 := h b (by simp)
    intro x hx
    simp only [base64url, List.mem_cons, List.not_mem_nil, or_false] at hx
    rcases hx with rfl | rfl | rfl
    · exact isBase64urlChar_b64Char _ (by omega)
    · exact isBase64urlChar_b64Char _ (by omega)
    · exact isBase64urlChar_b64Char _ (by omega)
  | case3 a =>
    have ha : a < 256 := h a (by simp)
    intro x hx
    simp only [base64url, List.mem_cons, List.not_mem_nil, or_false] at hx
    rcases hx with rfl | rfl
    · exact isBase64urlChar_b64Char _ (by omega)
    · exact isBase64urlChar_b64Char _ (by omega)
  | case4 => intro x hx; simp [base64url] at hx

theorem base64url_ne_nil (bs : Bytes) (h : bs ≠ []) : base64url bs ≠ [] := by
  match bs, h with
  | [_], _ => simp [base64url]
  | [_, _], _ => simp [base64url]
  | _ :: _ :: _ :: _, _ => simp [base64url]

theorem not_isBase64urlChar_dot : ¬ IsBase64urlChar 46 := by decide

theorem not_isBase64urlChar_newline : ¬ IsBase64urlChar 10 := by decide

/-! ## UTF-8 -/

theorem utf8OfCodePoint_lt (cp : Nat) : ∀ b ∈ utf8OfCodePoint cp, b < 256 := by
  intro b hb
  unfold utf8OfCodePoint at hb
  split_ifs at hb <;> simp at hb <;> omega

theorem utf8Unit_lt (u : Nat) : ∀ b ∈ utf8Unit u, b < 256 := by
  intro b hb
  unfold utf8Unit at hb
  split_ifs at hb
  · simp at hb; omega
  · exact utf8OfCodePoint_lt _ b hb

theorem utf8Encode_lt (s : JSString) : ∀ b ∈ utf8Encode s, b < 256 := by
  induction s using utf8Encode.induct with
  | case1 => intro b hb; simp [utf8Encode] at hb
  | case2 u => intro b hb; rw [utf8Encode] at hb; exact utf8Unit_lt _ b hb
  | case3 u lo rest hp ih =>
    intro b hb
    rw [utf8Encode, if_pos hp, List.mem_append] at hb
    rcases hb with hb | hb
    · exact utf8OfCodePoint_lt _ b hb
    · exact ih b hb
  | case4 u lo rest hp ih =>
    intro b hb
    rw [utf8Encode, if_neg hp, List.mem_append] at hb
    rcases hb with hb | hb
    · exact utf8Unit_lt _ b hb
    · exact ih b hb

theorem utf8Encode_ascii (s : JSString) (h : ∀ u ∈ s, u < 128) : utf8Encode s = s := by
  induction s using utf8Encode.induct with
  | case1 => rfl
  | case2 u =>
    have hu : u < 128 := h u (by simp)
    simp only [utf8Encode, utf8Unit, utf8OfCodePoint]
    rw [if_neg (by omega), if_pos hu]
  | case3 u lo rest hp ih =>
    have hu : u < 128 := h u (by simp)
    omega
  | case4 u lo rest hp ih =>
    have hu : u < 128 := h u (by simp)
    have hr := ih (fun x hx => h x (by simp [hx]))
    rw [utf8Encode, if_neg hp, hr]
    simp only [utf8Unit, utf8OfCodePoint]
    rw [if_neg (by omega), if_pos hu]
    rfl

theorem utf8OfCodePoint_ne_nil (cp : Nat) : utf8OfCodePoint cp ≠ [] := by
  unfold utf8OfCodePoint
  split_ifs <;> simp

theorem utf8Unit_ne_nil (u : Nat) : utf8Unit u ≠ [] := by
  unfold utf8Unit
  split_ifs
  · simp
  · exact utf8OfCodePoint_ne_nil u

theorem utf8Encode_ne_nil (s : JSString) (h : s ≠ []) : utf8Encode s ≠ [] := by
  match s, h with
  | [u], _ => rw [utf8Encode]; exact utf8Unit_ne_nil u
  | u :: lo :: rest, _ =>
    rw [utf8Encode]
    split_ifs
    · simp [utf8OfCodePoint_ne_nil]
    · simp [utf8Unit_ne_nil]

/-! ## SHA-256 and HMAC -/

theorem be32_lt (w : Nat) : ∀ b ∈ be32 w, b < 256 := by
  intro b hb
  simp only [be32, List.mem_cons, List.not_mem_nil, or_false] at hb
  omega

theorem bytes_lt (s : HashState) : ∀ b ∈ s.bytes, b < 256 := by
  intro b hb
  simp only [HashState.bytes, List.mem_append] at hb
  rcases hb with ((((((hb | hb) | hb) | hb) | hb) | hb) | hb) | hb <;> exact be32_lt _ b hb

theorem bytes_length (s : HashState) : s.bytes.length = 32 := by
  simp [HashState.bytes, be32]

theorem sha256_lt (msg : Bytes) : ∀ b ∈ sha256 msg, b < 256 := bytes_lt _

theorem sha256_length (msg : Bytes) : (sha256 msg).length = 32 := bytes_length _

theorem hmacSha256_lt (key msg : Bytes) : ∀ b ∈ hmacSha256 key msg, b < 256 := sha256_lt _

theorem hmacSha256_length (key msg : Bytes) : (hmacSha256 key msg).length = 32 := sha256_length _

theorem hmacSha256_ne_nil (key msg : Bytes) : hmacSha256 key msg ≠ [] := by
  intro h
  have := hmacSha256_length key msg
  rw [h] at this
  simp at this

/-! ## Splitting -/

theorem splitOn_of_not_mem (sep : Nat) (s : JSString) (h : sep ∉ s) : splitOn sep s = [s] := by
  induction s with
  | nil => rfl
  | cons c cs ih =>
    have hc : c ≠ sep := fun e => h (by simp [e])
    have hcs : sep ∉ cs := fun e => h (by simp [e])
    rw [splitOn, if_neg hc, ih hcs]

theorem splitOn_append_sep (sep : Nat) (s t : JSString) (h : sep ∉ s) :
    splitOn sep (s ++ sep :: t) = s :: splitOn sep t := by
  induction s with
  | nil => simp [splitOn]
  | cons c cs ih =>
    have hc : c ≠ sep := fun e => h (by simp [e])
    have hcs : sep ∉ cs := fun e => h (by simp [e])
    rw [List.cons_append, splitOn, if_neg hc, ih hcs]

/-! ## The three parts of the token -/

theorem header_isBase64url : ∀ c ∈ header, IsBase64urlChar c :=
  isBase64urlChar_base64url _ (utf8Encode_lt _)

theorem payload_isBase64url (now1 now2 : Nat) : ∀ c ∈ payload now1 now2, IsBase64urlChar c :=
  isBase64urlChar_base64url _ (utf8Encode_lt _)

theorem signature_isBase64url (sec : JSString) (now1 now2 : Nat) :
    ∀ c ∈ signature sec now1 now2, IsBase64urlChar c :=
  isBase64urlChar_base64url _ (hmacSha256_lt _ _)

theorem dot_not_mem_header : 46 ∉ header :=
  fun h => not_isBase64urlChar_dot (header_isBase64url 46 h)

theorem dot_not_mem_payload (now1 now2 : Nat) : 46 ∉ payload now1 now2 :=
  fun h => not_isBase64urlChar_dot (payload_isBase64url now1 now2 46 h)

theorem dot_not_mem_signature (sec : JSString) (now1 now2 : Nat) :
    46 ∉ signature sec now1 now2 :=
  fun h => not_isBase64urlChar_dot (signature_isBase64url sec now1 now2 46 h)

theorem token_eq (sec : JSString) (now1 now2 : Nat) :
    token sec now1 now2 = header ++ 46 :: (payload now1 now2 ++ 46 :: signature sec now1 now2) := by
  have h : lit "." = [46] := by decide
  simp [token, h]

theorem segments_token (sec : JSString) (now1 now2 : Nat) :
    segments (token sec now1 now2) = [header, payload now1 now2, signature sec now1 now2] := by
  rw [segments, token_eq, splitOn_append_sep _ _ _ dot_not_mem_header,
    splitOn_append_sep _ _ _ (dot_not_mem_payload now1 now2),
    splitOn_of_not_mem _ _ (dot_not_mem_signature sec now1 now2)]

theorem token_isBase64url_or_dot (sec : JSString) (now1 now2 : Nat) :
    ∀ c ∈ token sec now1 now2, c = 46 ∨ IsBase64urlChar c := by
  intro c hc
  rw [token_eq] at hc
  simp only [List.mem_append, List.mem_cons] at hc
  rcases hc with hc | rfl | hc | rfl | hc
  · exact Or.inr (header_isBase64url c hc)
  · exact Or.inl rfl
  · exact Or.inr (payload_isBase64url now1 now2 c hc)
  · exact Or.inl rfl
  · exact Or.inr (signature_isBase64url sec now1 now2 c hc)

theorem stringify_ne_nil (obj : JSObject) : JSON.stringify obj ≠ [] := by
  simp [JSON.stringify]

theorem payload_ne_nil (now1 now2 : Nat) : payload now1 now2 ≠ [] :=
  base64url_ne_nil _ (utf8Encode_ne_nil _ (stringify_ne_nil _))

theorem signature_ne_nil (sec : JSString) (now1 now2 : Nat) : signature sec now1 now2 ≠ [] :=
  base64url_ne_nil _ (hmacSha256_ne_nil _ _)

theorem header_eq : header = lit "eyJhbGciOiJIUzI1NiIsInR5cCI6IkpXVCJ9" := by decide

theorem lines_stdout (sec : JSString) (now1 now2 : Nat) :
    lines (stdout sec now1 now2) = [lit "JWT Token:", [], token sec now1 now2] := by
  have hl : lit "JWT Token:\n" = lit "JWT Token:" ++ [10] := by decide
  have h1 : (10 : Nat) ∉ lit "JWT Token:" := by decide
  have h2 : (10 : Nat) ∉ token sec now1 now2 := fun h => by
    rcases token_isBase64url_or_dot sec now1 now2 10 h with h | h
    · omega
    · exact not_isBase64urlChar_newline h
  have hs : stdout sec now1 now2
      = lit "JWT Token:" ++ 10 :: ([] ++ 10 :: (token sec now1 now2 ++ 10 :: [])) := by
    simp [stdout, consoleLog, hl]
  have hsp : splitOn 10 (stdout sec now1 now2) = [lit "JWT Token:", [], token sec now1 now2, []] := by
    rw [hs, splitOn_append_sep _ _ _ h1, splitOn_append_sep _ _ _ (List.not_mem_nil _),
      splitOn_append_sep _ _ _ h2]
    rfl
  simp [lines, hsp]

theorem lt_of_isBase64urlChar (c : Nat) (h : IsBase64urlChar c) : c < 128 := by
  unfold IsBase64urlChar at h
  omega

theorem signingInput_ascii (now1 now2 : Nat) :
    ∀ u ∈ header ++ lit "." ++ payload now1 now2, u < 128 := by
  have h : lit "." = [46] := by decide
  intro u hu
  simp only [h, List.mem_append, List.mem_singleton] at hu
  rcases hu with (hu | rfl) | hu
  · exact lt_of_isBase64urlChar u (header_isBase64url u hu)
  · decide
  · exact lt_of_isBase64urlChar u (payload_isBase64url now1 now2 u hu)

theorem segment_zero_token (sec : JSString) (now1 now2 : Nat) :
    segment 0 (token sec now1 now2) = header := by
  simp [segment, segments_token]

theorem segment_one_token (sec : JSString) (now1 now2 : Nat) :
    segment 1 (token sec now1 now2) = payload now1 now2 := by
  simp [segment, segments_token]

theorem segment_two_token (sec : JSString) (now1 now2 : Nat) :
    segment 2 (token sec now1 now2) = signature sec now1 now2 := by
  simp [segment, segments_token]

theorem stringify_headerObject :
    JSON.stringify headerObject = lit "\x7b\"alg\":\"HS256\",\"typ\":\"JWT\"\x7d" := by
  decide

theorem stringify_payloadObject_1700000000 :
    JSON.stringify (payloadObject 1700000000000 1700000000000) =
      lit ("\x7b\"userId\":\"test-user-123\",\"phone\":\"+1234567890\",\"role\":\"ADMIN\"," ++
        "\"iat\":1700000000,\"exp\":1700086400\x7d") := by
  decide!

theorem payload_1700000000 :
    payload 1700000000000 1700000000000 =
      lit ("eyJ1c2VySWQiOiJ0ZXN0LXVzZXItMTIzIiwicGhvbmUiOiIrMTIzNDU2Nzg5MCIsInJvbGUiOiJBRE1JTiIs" ++
        "ImlhdCI6MTcwMDAwMDAwMCwiZXhwIjoxNzAwMDg2NDAwfQ") := by
  decide!

/-! ## Test vectors of the primitives -/

/-- SHA-256 of the message `abc` (FIPS 180-4, example of one block). -/
theorem sha256_abc :
    sha256 [0x61, 0x62, 0x63] =
      [0xba, 0x78, 0x16, 0xbf, 0x8f, 0x01, 0xcf, 0xea, 0x41, 0x41, 0x40, 0xde, 0x5d, 0xae, 0x22,
       0x23, 0xb0, 0x03, 0x61, 0xa3, 0x96, 0x17, 0x7a, 0x9c, 0xb4, 0x10, 0xff, 0x61, 0xf2, 0x00,
       0x15, 0xad] := by
  decide!

/-- HMAC-SHA256 of RFC 4231, test case 2: key `Jefe`. -/
theorem hmacSha256_jefe :
    hmacSha256 (utf8Encode (lit "Jefe")) (utf8Encode (lit "what do ya want for nothing?")) =
      [0x5b, 0xdc, 0xc1, 0x46, 0xbf, 0x60, 0x75, 0x4e, 0x6a, 0x04, 0x24, 0x26, 0x08, 0x95, 0x75,
       0xc7, 0x5a, 0x00, 0x3f, 0x08, 0x9d, 0x27, 0x39, 0x83, 0x9d, 0xec, 0x58, 0xb9, 0x64, 0xec,
       0x38, 0x43] := by
  decide!

/-- HMAC-SHA256 of RFC 4231, test case 6: a key of 131 bytes, longer than the block. -/
theorem hmacSha256_long_key :
    hmacSha256 (List.replicate 131 0xaa)
        (utf8Encode (lit "Test Using Larger Than Block-Size Key - Hash Key First")) =
      [0x60, 0xe4, 0x31, 0x59, 0x1e, 0xe0, 0xb6, 0x7f, 0x0d, 0x8a, 0x26, 0xaa, 0xcb, 0xf5, 0xb7,
       0x7f, 0x8e, 0x0b, 0xc6, 0x21, 0x37, 0x28, 0xc5, 0x14, 0x05, 0x46, 0x04, 0x0f, 0x0e, 0xe3,
       0x7f, 0x54] := by
  decide!

/-- The token of the script for both clock readings at `1700000000000` ms. -/
theorem token_golden :
    token secret 1700000000000 1700000000000 =
      lit ("eyJhbGciOiJIUzI1NiIsInR5cCI6IkpXVCJ9." ++
        "eyJ1c2VySWQiOiJ0ZXN0LXVzZXItMTIzIiwicGhvbmUiOiIrMTIzNDU2Nzg5MCIsInJvbGUiOiJBRE1JTiIs" ++
        "ImlhdCI6MTcwMDAwMDAwMCwiZXhwIjoxNzAwMDg2NDAwfQ." ++
        "U9KyDWm7W5m_tLg2NriPuOCRLl41qc4xgy7wucmrTho") := by
  decide!

/-! ## The claims -/

/-- C1: for every secret and every pair of clock readings, decoding segment 3 of the token
from base64url gives exactly the HMAC-SHA256 digest, 32 bytes long, whose key is the UTF-8
encoding of the secret and whose message is the bytes of segment 1, a dot and segment 2 of the
same token; that message is ASCII, so its UTF-8 bytes are its characters. -/
theorem signature_verifies (sec : JSString) (now1 now2 : Nat) :
    base64urlDecode (segment 2 (token sec now1 now2)) =
        some (hmacSha256 (utf8Encode sec)
          (utf8Encode (segment 0 (token sec now1 now2) ++ lit "." ++
            segment 1 (token sec now1 now2)))) ∧
      (hmacSha256 (utf8Encode sec)
          (utf8Encode (segment 0 (token sec now1 now2) ++ lit "." ++
            segment 1 (token sec now1 now2)))).length = 32 ∧
      (∀ u ∈ segment 0 (token sec now1 now2) ++ lit "." ++ segment 1 (token sec now1 now2),
        u < 128) ∧
      utf8Encode (segment 0 (token sec now1 now2) ++ lit "." ++ segment 1 (token sec now1 now2)) =
        segment 0 (token sec now1 now2) ++ lit "." ++ segment 1 (token sec now1 now2) := by
  rw [segment_zero_token, segment_one_token, segment_two_token]
  refine ⟨?_, hmacSha256_length _ _, signingInput_ascii now1 now2,
    utf8Encode_ascii _ (signingInput_ascii now1 now2)⟩
  exact base64urlDecode_base64url _ (hmacSha256_lt _ _)

/-- C2: when the clock passes a second boundary between the two calls of `Date.now()`
(`1699999999999` ms, then `1700000000000` ms), the payload has `iat = 1699999999` and
`exp = 1700086400`, which is `iat + 86401` and not `iat + 86400`. -/
theorem exp_at_second_boundary :
    (payloadObject 1699999999999 1700000000000).get? (lit "iat") = some (.num 1699999999) ∧
      (payloadObject 1699999999999 1700000000000).get? (lit "exp") = some (.num 1700086400) ∧
      (payloadObject 1699999999999 1700000000000).get? (lit "exp") ≠
        some (.num (1699999999 + 86400)) ∧
      JSON.stringify (payloadObject 1699999999999 1700000000000) =
        lit ("\x7b\"userId\":\"test-user-123\",\"phone\":\"+1234567890\",\"role\":\"ADMIN\"," ++
          "\"iat\":1699999999,\"exp\":1700086400\x7d") := by
  decide!

/-- When both calls of `Date.now()` fall in the same epoch second, `exp` is `iat + 86400`. -/
theorem exp_of_same_second (now1 now2 : Nat) (h : now1 / 1000 = now2 / 1000) :
    (payloadObject now1 now2).get? (lit "iat") = some (.num (now1 / 1000)) ∧
      (payloadObject now1 now2).get? (lit "exp") = some (.num (now1 / 1000 + 86400)) := by
  have h1 : ((lit "iat" == lit "userId") = false) ∧ ((lit "iat" == lit "phone") = false) ∧
      ((lit "iat" == lit "role") = false) ∧ ((lit "iat" == lit "iat") = true) := by decide
  have h2 : ((lit "exp" == lit "userId") = false) ∧ ((lit "exp" == lit "phone") = false) ∧
      ((lit "exp" == lit "role") = false) ∧ ((lit "exp" == lit "iat") = false) ∧
      ((lit "exp" == lit "exp") = true) := by decide
  constructor
  · simp only [JSObject.get?, payloadObject, List.lookup, h1.1, h1.2.1, h1.2.2.1, h1.2.2.2]
  · simp only [JSObject.get?, payloadObject, List.lookup, h2.1, h2.2.1, h2.2.2.1, h2.2.2.2.1,
      h2.2.2.2.2, h]

/-- C3: for every secret and every pair of clock readings, decoding segment 1 of the token
from base64url gives the UTF-8 bytes of the JSON text of the header, with the keys `alg` and
`typ` in this order and no whitespace. -/
theorem header_decodes (sec : JSString) (now1 now2 : Nat) :
    base64urlDecode (segment 0 (token sec now1 now2)) =
      some (utf8Encode (lit "\x7b\"alg\":\"HS256\",\"typ\":\"JWT\"\x7d")) := by
  rw [segment_zero_token, header, stringify_headerObject]
  exact base64urlDecode_base64url _ (utf8Encode_lt _)

/-- C4: for every secret and every pair of clock readings, the token splits at its dots into
exactly three segments, the header, the payload and the signature; it has exactly two dots,
none of the three parts has a dot, and each segment is non-empty. -/
theorem token_three_segments (sec : JSString) (now1 now2 : Nat) :
    segments (token sec now1 now2) = [header, payload now1 now2, signature sec now1 now2] ∧
      (segments (token sec now1 now2)).length = 3 ∧
      (token sec now1 now2).count 46 = 2 ∧
      46 ∉ header ∧ 46 ∉ payload now1 now2 ∧ 46 ∉ signature sec now1 now2 ∧
      ∀ s ∈ segments (token sec now1 now2), s ≠ [] := by
  have hh := dot_not_mem_header
  have hp := dot_not_mem_payload now1 now2
  have hs := dot_not_mem_signature sec now1 now2
  refine ⟨segments_token sec now1 now2, by rw [segments_token]; rfl, ?_, hh, hp, hs, ?_⟩
  · rw [token_eq]
    simp [List.count_append, List.count_cons, List.count_eq_zero.mpr hh,
      List.count_eq_zero.mpr hp, List.count_eq_zero.mpr hs]
  · intro s hm
    rw [segments_token] at hm
    simp only [List.mem_cons, List.not_mem_nil, or_false] at hm
    rcases hm with rfl | rfl | rfl
    · rw [header_eq]; decide
    · exact payload_ne_nil now1 now2
    · exact signature_ne_nil sec now1 now2

/-- C5: when both clock readings fall in the epoch second `1700000000`, the serialized payload
is the JSON text with the keys `userId`, `phone`, `role`, `iat`, `exp` in this order, the
integers in decimal and no whitespace, and segment 2 of the token is the base64url encoding
without padding of the UTF-8 bytes of that text. -/
theorem payload_at_1700000000 (sec : JSString) (now1 now2 : Nat)
    (h1 : now1 / 1000 = 1700000000) (h2 : now2 / 1000 = 1700000000) :
    JSON.stringify (payloadObject now1 now2) =
        lit ("\x7b\"userId\":\"test-user-123\",\"phone\":\"+1234567890\",\"role\":\"ADMIN\"," ++
          "\"iat\":1700000000,\"exp\":1700086400\x7d") ∧
      segment 1 (token sec now1 now2) =
        base64url (utf8Encode
          (lit ("\x7b\"userId\":\"test-user-123\",\"phone\":\"+1234567890\",\"role\":\"ADMIN\"," ++
            "\"iat\":1700000000,\"exp\":1700086400\x7d"))) ∧
      segment 1 (token sec now1 now2) =
        lit ("eyJ1c2VySWQiOiJ0ZXN0LXVzZXItMTIzIiwicGhvbmUiOiIrMTIzNDU2Nzg5MCIsInJvbGUiOiJBRE1JTiIs" ++
          "ImlhdCI6MTcwMDAwMDAwMCwiZXhwIjoxNzAwMDg2NDAwfQ") := by
  have ho : payloadObject now1 now2 = payloadObject 1700000000000 1700000000000 := by
    simp [payloadObject, h1, h2]
  have hp : payload now1 now2 = payload 1700000000000 1700000000000 := by
    rw [payload, ho, payload]
  refine ⟨by rw [ho]; exact stringify_payloadObject_1700000000, ?_, ?_⟩
  · rw [segment_one_token, payload, ho, stringify_payloadObject_1700000000]
  · rw [segment_one_token, hp]; exact payload_1700000000

/-- Witness of C5: the readings `1700000000000` ms and `1700000000999` ms fall in the epoch
second `1700000000`. -/
theorem payload_at_1700000000_witness :
    JSON.stringify (payloadObject 1700000000000 1700000000999) =
        lit ("\x7b\"userId\":\"test-user-123\",\"phone\":\"+1234567890\",\"role\":\"ADMIN\"," ++
          "\"iat\":1700000000,\"exp\":1700086400\x7d") ∧
      segment 1 (token secret 1700000000000 1700000000999) =
        base64url (utf8Encode
          (lit ("\x7b\"userId\":\"test-user-123\",\"phone\":\"+1234567890\",\"role\":\"ADMIN\"," ++
            "\"iat\":1700000000,\"exp\":1700086400\x7d"))) ∧
      segment 1 (token secret 1700000000000 1700000000999) =
        lit ("eyJ1c2VySWQiOiJ0ZXN0LXVzZXItMTIzIiwicGhvbmUiOiIrMTIzNDU2Nzg5MCIsInJvbGUiOiJBRE1JTiIs" ++
          "ImlhdCI6MTcwMDAwMDAwMCwiZXhwIjoxNzAwMDg2NDAwfQ") :=
  payload_at_1700000000 secret 1700000000000 1700000000999 (by decide) (by decide)

/-- C6: for every secret and every pair of clock readings, every character of the token is
a dot or a character of the base64url alphabet; the token has no `=`, no `+` and no `/`, also
where the encoded bytes are not a multiple of three, as for the digest of 32 bytes. -/
theorem token_alphabet (sec : JSString) (now1 now2 : Nat) :
    (∀ c ∈ token sec now1 now2, c = 46 ∨ IsBase64urlChar c) ∧
      61 ∉ token sec now1 now2 ∧ 43 ∉ token sec now1 now2 ∧ 47 ∉ token sec now1 now2 ∧
      (hmacSha256 (utf8Encode sec)
        (utf8Encode (header ++ lit "." ++ payload now1 now2))).length % 3 = 2 := by
  have h := token_isBase64url_or_dot sec now1 now2
  refine ⟨h, ?_, ?_, ?_, by rw [hmacSha256_length]⟩
  · intro hm
    rcases h 61 hm with h | h
    · omega
    · revert h; decide
  · intro hm
    rcases h 43 hm with h | h
    · omega
    · revert h; decide
  · intro hm
    rcases h 47 hm with h | h
    · omega
    · revert h; decide

/-- C7, as stated, fails: for the secret of the script and both clock readings at
`1700000000000` ms, standard output is not the two lines label and token; it has three
lines. -/
theorem stdout_not_two_lines :
    lines (stdout secret 1700000000000 1700000000000) ≠
        [lit "JWT Token:", token secret 1700000000000 1700000000000] ∧
      (lines (stdout secret 1700000000000 1700000000000)).length ≠ 2 := by
  rw [lines_stdout]
  exact ⟨by simp, by decide⟩

/-- C7, amended: for every secret and every pair of clock readings, standard output consists of
exactly three lines: the label line `JWT Token:`, an empty line, and the line of the token. -/
theorem stdout_three_lines (sec : JSString) (now1 now2 : Nat) :
    lines (stdout sec now1 now2) = [lit "JWT Token:", [], token sec now1 now2] ∧
      (lines (stdout sec now1 now2)).length = 3 := by
  rw [lines_stdout]
  exact ⟨rfl, rfl⟩

/-- C8: for every secret and every pair of clock readings, standard output is the label
`JWT Token:`, two newlines, the token and one newline, and nothing else. -/
theorem stdout_eq (sec : JSString) (now1 now2 : Nat) :
    stdout sec now1 now2 = lit "JWT Token:\n\n" ++ token sec now1 now2 ++ lit "\n" := by
  have h1 : lit "JWT Token:\n\n" = lit "JWT Token:\n" ++ [10] := by decide
  have h2 : lit "\n" = [10] := by decide
  simp [stdout, consoleLog, h1, h2]

/-- C9: for any two secrets and the same clock readings, the two tokens have the same
segment 1 and the same segment 2. -/
theorem header_payload_independent_of_secret (sec1 sec2 : JSString) (now1 now2 : Nat) :
    segment 0 (token sec1 now1 now2) = segment 0 (token sec2 now1 now2) ∧
      segment 1 (token sec1 now1 now2) = segment 1 (token sec2 now1 now2) := by
  simp only [segment_zero_token, segment_one_token, and_self]

/-! ## The signature and the secret -/

/-- Two secrets with the same UTF-8 bytes sign alike: the secret of the script followed by the
unpaired surrogate `D800`, and the same followed by the unpaired surrogate `D801`, have the same
length and differ in exactly one character, and the two tokens have the same segment 3. -/
theorem signature_collision :
    (secret ++ [0xD800]).length = (secret ++ [0xD801]).length ∧
      diffCount (secret ++ [0xD800]) (secret ++ [0xD801]) = 1 ∧
      segment 2 (token (secret ++ [0xD800]) 1700000000000 1700000000000) =
        segment 2 (token (secret ++ [0xD801]) 1700000000000 1700000000000) := by
  refine ⟨by decide, by decide, ?_⟩
  have h : utf8Encode (secret ++ [0xD800]) = utf8Encode (secret ++ [0xD801]) := by decide
  rw [segment_two_token, segment_two_token, signature, signature, h]

/-- The encoding of the digest loses nothing: for any two secrets and the same clock readings,
the two tokens have the same segment 3 exactly when the two HMAC-SHA256 digests, keyed by the
UTF-8 bytes of the two secrets over the same message, are equal. Whether two different keys
give different digests is a property of HMAC-SHA256 that this statement leaves open. -/
theorem signature_eq_iff (sec1 sec2 : JSString) (now1 now2 : Nat) :
    segment 2 (token sec1 now1 now2) = segment 2 (token sec2 now1 now2) ↔
      hmacSha256 (utf8Encode sec1) (utf8Encode (header ++ lit "." ++ payload now1 now2)) =
        hmacSha256 (utf8Encode sec2) (utf8Encode (header ++ lit "." ++ payload now1 now2)) := by
  rw [segment_two_token, segment_two_token]
  constructor
  · exact base64url_injective _ _ (hmacSha256_lt _ _) (hmacSha256_lt _ _)
  · intro h
    rw [signature, signature, h]

/-- Changing the first character of the secret of the script from `y` to `x` changes the
signature (both clock readings at `1700000000000` ms). -/
theorem signature_changes_example :
    signature (lit "xour-super-secret-jwt-key-min-32-chars") 1700000000000 1700000000000 ≠
      signature secret 1700000000000 1700000000000 := by
  decide!

end GenerateToken
